import Mathlib

/-!
Shallow embedding of the external-dns SolidDNS webhook provider
(package soliddns): the record translation layer
(convertRecordsToEndpoints, handleARecord, createStandardEndpoint),
the per-target write fan-out (RecordAdd, RecordDelete,
createSingleRecord, deleteSingleRecord) and the provider layer
(ApplyChanges, AdjustEndpoints, addPTRRecordTracking, CreateChanges,
DeleteChanges).

Modelling conventions:
- The external-dns `endpoint.Endpoint` struct is embedded with the
  fields the code touches (DNSName, RecordType, RecordTTL, Targets,
  Labels, ProviderSpecific); `endpoint.NewEndpointWithTTL` constructs
  one, `TTL.IsConfigured` is `ttl > 0`, `WithProviderSpecific` appends.
- Outbound appliance calls (DnsRrAdd / DnsRrDelete) are reified as an
  `ApplianceCall` trace; the appliance transport and HTTP status are
  collapsed into a responder `ApplianceCall → Bool` (false means a
  transport error or a status >= 400, both of which the Go code turns
  into a returned error).  Each operation returns the list of calls it
  issued together with an optional error.
- The unordered Go map `hostRecords` is embedded as an association
  list in insertion order; `convertRecordsToEndpointsIter` abstracts
  the final map iteration as a parameter so that order-sensitive
  claims can be proved for every permutation of the accumulator.
- Go `int32(...)` truncation is made explicit with `toInt32`.
-/

namespace SolidDNS

/-- RecordTypeA mirrors the external-dns constant `endpoint.RecordTypeA`. -/
def RecordTypeA : String := "A"

/-- providerSpecificEfficientipPtrRecord mirrors the constant in types.go. -/
def providerSpecificEfficientipPtrRecord : String := "efficientip-ptr-record-exists"

/-- ResourceRecord embeds one appliance row (eip.DataInnerDnsRrData):
full name, record type, string-encoded TTL and a single value. -/
structure ResourceRecord where
  rrFullName : String
  rrType : String
  rrTtl : String
  rrAllValue : String
deriving DecidableEq, Repr

/-- ProviderSpecificProperty embeds external-dns
`endpoint.ProviderSpecificProperty`. -/
structure ProviderSpecificProperty where
  name : String
  value : String
deriving DecidableEq, Repr

/-- Endpoint embeds the fields of external-dns `endpoint.Endpoint`
that this provider reads or writes. -/
structure Endpoint where
  dnsName : String
  recordType : String
  recordTTL : Int
  targets : List String
  labels : List (String × String)
  providerSpecific : List ProviderSpecificProperty
deriving DecidableEq, Repr

/-- NewEndpointWithTTL embeds the external-dns constructor used by the
translator: name, type, ttl and targets, with empty labels and no
provider-specific entries. -/
def NewEndpointWithTTL (dnsName recordType : String) (ttl : Int)
    (targets : List String) : Endpoint :=
  { dnsName := dnsName
    recordType := recordType
    recordTTL := ttl
    targets := targets
    labels := []
    providerSpecific := [] }

/-- ttlIsConfigured embeds external-dns `TTL.IsConfigured`: `ttl > 0`. -/
def ttlIsConfigured (t : Int) : Bool := decide (0 < t)

/-- toInt32 is the Go `int32(...)` conversion on a 64-bit value:
wrap into [-2^31, 2^31). -/
def toInt32 (n : Int) : Int := (n + 2 ^ 31) % 2 ^ 32 - 2 ^ 31

/-- digitsAux accumulates the value of a decimal digit run, failing on
the first non-digit character. -/
def digitsAux : Nat → List Char → Option Nat
  | acc, [] => some acc
  | acc, c :: rest =>
    if c.isDigit then digitsAux (acc * 10 + (c.toNat - 48)) rest else none

/-- digitsVal parses a nonempty run of decimal digits. -/
def digitsVal : List Char → Option Nat
  | [] => none
  | l => digitsAux 0 l

/-- atoi embeds Go `strconv.Atoi` on a 64-bit platform: an optional
sign followed by at least one digit, failing on any other character,
on the empty string, and on values outside the int64 range. -/
def atoi (s : String) : Option Int :=
  let signed : Option Int :=
    match s.data with
    | '-' :: rest => (digitsVal rest).map (fun n => -(n : Int))
    | '+' :: rest => (digitsVal rest).map (fun n => (n : Int))
    | l => (digitsVal l).map (fun n => (n : Int))
  match signed with
  | some n => if -(2 ^ 63) ≤ n ∧ n < 2 ^ 63 then some n else none
  | none => none

/-- parseTTL embeds lines 259-263 of the record listing: `strconv.Atoi`
on the row TTL, substituting the default 300 when parsing fails. -/
def parseTTL (s : String) : Int :=
  match atoi s with
  | some n => n
  | none => 300

/-- appendTargetToKey updates the association list entry whose key
matches, appending one more target to its endpoint (the Go code
mutates the map entry in place via the stored pointer). -/
def appendTargetToKey (key tgt : String) :
    List (String × Endpoint) → List (String × Endpoint)
  | [] => []
  | (k, e) :: rest =>
    if k = key then (k, { e with targets := e.targets ++ [tgt] }) :: rest
    else (k, e) :: appendTargetToKey key tgt rest

/-- lookupKey is the Go map read `hostRecords[key]`. -/
def lookupKey (key : String) (l : List (String × Endpoint)) : Option Endpoint :=
  (l.find? (fun q => q.1 == key)).map (fun q => q.2)

/-- handleARecord embeds the function of the same name: group A rows
by full name; a row whose key is already present contributes one more
target, otherwise a fresh single-target endpoint is stored. -/
def handleARecord (rr : ResourceRecord) (ttl : Int)
    (hostRecords : List (String × Endpoint)) : List (String × Endpoint) :=
  let key := rr.rrFullName ++ ":A"
  match lookupKey key hostRecords with
  | some _ => appendTargetToKey key rr.rrAllValue hostRecords
  | none =>
    hostRecords ++
      [(key, NewEndpointWithTTL rr.rrFullName RecordTypeA ttl [rr.rrAllValue])]

/-- createStandardEndpoint embeds the function of the same name:
a single-target endpoint for a TXT or CNAME row. -/
def createStandardEndpoint (rr : ResourceRecord) (ttl : Int) : Endpoint :=
  NewEndpointWithTTL rr.rrFullName rr.rrType ttl [rr.rrAllValue]

/-- convertLoop is the record loop of convertRecordsToEndpoints,
threading the output sequence and the A-record accumulator. -/
def convertLoop : List ResourceRecord → List Endpoint →
    List (String × Endpoint) → List Endpoint × List (String × Endpoint)
  | [], endpoints, hostRecords => (endpoints, hostRecords)
  | rr :: rest, endpoints, hostRecords =>
    let ttl := parseTTL rr.rrTtl
    if rr.rrType = "A" then
      convertLoop rest endpoints (handleARecord rr ttl hostRecords)
    else if rr.rrType = "TXT" ∨ rr.rrType = "CNAME" then
      convertLoop rest (endpoints ++ [createStandardEndpoint rr ttl]) hostRecords
    else
      convertLoop rest endpoints hostRecords

/-- convertRecordsToEndpointsIter is convertRecordsToEndpoints with
the iteration order of the final Go map walk abstracted: `iter` stands
for the order in which `for _, record := range hostRecords` yields the
accumulated entries (insertion order when `iter = id`; faithfulness to
the unordered Go map is recovered by quantifying over all
permutations). -/
def convertRecordsToEndpointsIter
    (iter : List (String × Endpoint) → List (String × Endpoint))
    (records : List ResourceRecord) : Except String (List Endpoint) :=
  let r := convertLoop records [] []
  Except.ok (r.1 ++ (iter r.2).map (fun q => q.2))

/-- convertRecordsToEndpoints embeds the function of the same name,
reading the accumulator in insertion order. -/
def convertRecordsToEndpoints (records : List ResourceRecord) :
    Except String (List Endpoint) :=
  convertRecordsToEndpointsIter id records

/-- ApplianceCall reifies one outbound appliance API call:
DnsRrAdd with its input fields, or DnsRrDelete keyed by
name, type and value. -/
inductive ApplianceCall where
  | add (serverName viewName rrName rrType : String) (rrTtl : Int) (value : String)
  | del (rrName rrType value : String)
deriving DecidableEq, Repr

/-- ApiError distinguishes the empty-target-list rejection from an
error surfaced by an outbound call (transport failure or status
>= 400, which the Go code wraps and returns alike). -/
inductive ApiError where
  | invalidInput (name : String)
  | upstream (call : ApplianceCall)
deriving DecidableEq, Repr

/-- EfficientIPAPI holds the smart name and view the client was
constructed with (NewEfficientIPAPI). -/
structure EfficientIPAPI where
  dnsName : String
  dnsView : String
deriving DecidableEq, Repr

/-- Responder abstracts the appliance: whether a given call succeeds
(err == nil and status < 400). -/
def Responder := ApplianceCall → Bool

/-- mkAddCall is the DnsRrAddInput assembled by createSingleRecord:
server name, view name, endpoint name and type, `int32(ep.RecordTTL)`
and one target value. -/
def mkAddCall (api : EfficientIPAPI) (ep : Endpoint) (target : String) :
    ApplianceCall :=
  ApplianceCall.add api.dnsName api.dnsView ep.dnsName ep.recordType
    (toInt32 ep.recordTTL) target

/-- mkDelCall is the DnsRrDelete request assembled by
deleteSingleRecord: name, type and one target value. -/
def mkDelCall (ep : Endpoint) (target : String) : ApplianceCall :=
  ApplianceCall.del ep.dnsName ep.recordType target

/-- createSingleRecord embeds the method of the same name: it issues
exactly one add call and fails iff the responder does. -/
def createSingleRecord (api : EfficientIPAPI) (resp : Responder)
    (ep : Endpoint) (target : String) : List ApplianceCall × Option ApiError :=
  let c := mkAddCall api ep target
  ([c], if resp c then none else some (ApiError.upstream c))

/-- deleteSingleRecord embeds the method of the same name: it issues
exactly one delete call and fails iff the responder does. -/
def deleteSingleRecord (resp : Responder) (ep : Endpoint) (target : String) :
    List ApplianceCall × Option ApiError :=
  let c := mkDelCall ep target
  ([c], if resp c then none else some (ApiError.upstream c))

/-- recordAddLoop is the target loop of RecordAdd: sequential calls,
returning on the first error. -/
def recordAddLoop (api : EfficientIPAPI) (resp : Responder) (ep : Endpoint) :
    List String → List ApplianceCall × Option ApiError
  | [] => ([], none)
  | t :: ts =>
    let r := createSingleRecord api resp ep t
    match r.2 with
    | some e => (r.1, some e)
    | none =>
      let rest := recordAddLoop api resp ep ts
      (r.1 ++ rest.1, rest.2)

/-- recordDeleteLoop is the target loop of RecordDelete. -/
def recordDeleteLoop (resp : Responder) (ep : Endpoint) :
    List String → List ApplianceCall × Option ApiError
  | [] => ([], none)
  | t :: ts =>
    let r := deleteSingleRecord resp ep t
    match r.2 with
    | some e => (r.1, some e)
    | none =>
      let rest := recordDeleteLoop resp ep ts
      (r.1 ++ rest.1, rest.2)

/-- RecordAdd embeds the method of the same name: reject an empty
target list, otherwise one create call per target, fail-fast. -/
def RecordAdd (api : EfficientIPAPI) (resp : Responder) (ep : Endpoint) :
    List ApplianceCall × Option ApiError :=
  if ep.targets.length = 0 then ([], some (ApiError.invalidInput ep.dnsName))
  else recordAddLoop api resp ep ep.targets

/-- RecordDelete embeds the method of the same name: reject an empty
target list, otherwise one delete call per target, fail-fast. -/
def RecordDelete (_api : EfficientIPAPI) (resp : Responder) (ep : Endpoint) :
    List ApplianceCall × Option ApiError :=
  if ep.targets.length = 0 then ([], some (ApiError.invalidInput ep.dnsName))
  else recordDeleteLoop resp ep ep.targets

/-- EfficientIPConfig holds the configuration fields the provider
layer reads. -/
structure EfficientIPConfig where
  DryRun : Bool
  CreatePTR : Bool
  DefaultTTL : Int
deriving DecidableEq, Repr

/-- Provider embeds the provider struct: its API client (as assembled
by NewEfficientIPProvider) and its configuration. -/
structure Provider where
  api : EfficientIPAPI
  config : EfficientIPConfig
deriving DecidableEq, Repr

/-- Changes embeds `plan.Changes`: the four endpoint sub-batches. -/
structure Changes where
  create : List Endpoint
  updateOld : List Endpoint
  updateNew : List Endpoint
  delete : List Endpoint
deriving DecidableEq, Repr

/-- DeleteChanges embeds the method of the same name: a dry run logs
and succeeds without any call, otherwise RecordDelete runs (the Go
wrapping of the error with context preserves the error itself). -/
def DeleteChanges (p : Provider) (resp : Responder) (ep : Endpoint) :
    List ApplianceCall × Option ApiError :=
  if p.config.DryRun then ([], none)
  else RecordDelete p.api resp ep

/-- CreateChanges embeds the method of the same name: a dry run logs
and succeeds without any call, otherwise RecordAdd runs. -/
def CreateChanges (p : Provider) (resp : Responder) (ep : Endpoint) :
    List ApplianceCall × Option ApiError :=
  if p.config.DryRun then ([], none)
  else RecordAdd p.api resp ep

/-- processDeletions embeds the method of the same name: DeleteChanges
on each endpoint in order, returning on the first error with the calls
issued so far. -/
def processDeletions (p : Provider) (resp : Responder) :
    List Endpoint → List ApplianceCall × Option ApiError
  | [] => ([], none)
  | ep :: rest =>
    let r := DeleteChanges p resp ep
    match r.2 with
    | some e => (r.1, some e)
    | none =>
      let tail := processDeletions p resp rest
      (r.1 ++ tail.1, tail.2)

/-- processCreations embeds the method of the same name: CreateChanges
on each endpoint in order, returning on the first error. -/
def processCreations (p : Provider) (resp : Responder) :
    List Endpoint → List ApplianceCall × Option ApiError
  | [] => ([], none)
  | ep :: rest =>
    let r := CreateChanges p resp ep
    match r.2 with
    | some e => (r.1, some e)
    | none =>
      let tail := processCreations p resp rest
      (r.1 ++ tail.1, tail.2)

/-- ApplyChanges embeds the method of the same name: nil changes are a
no-op; otherwise Delete, then UpdateOld as deletions, then Create,
then UpdateNew as creations, each early-returning on error.  The
returned list is the full trace of appliance calls issued. -/
def ApplyChanges (p : Provider) (resp : Responder) (changes : Option Changes) :
    List ApplianceCall × Option ApiError :=
  match changes with
  | none => ([], none)
  | some ch =>
    let d := processDeletions p resp ch.delete
    match d.2 with
    | some e => (d.1, some e)
    | none =>
      let uo := processDeletions p resp ch.updateOld
      match uo.2 with
      | some e => (d.1 ++ uo.1, some e)
      | none =>
        let c := processCreations p resp ch.create
        match c.2 with
        | some e => (d.1 ++ uo.1 ++ c.1, some e)
        | none =>
          let un := processCreations p resp ch.updateNew
          (d.1 ++ uo.1 ++ c.1 ++ un.1, un.2)

/-- setPtrFirst walks the provider-specific entries, overwriting the
value of the first one whose name is the PTR-tracking key; it returns
none when no entry matches (the `found` flag in the Go loop). -/
def setPtrFirst : List ProviderSpecificProperty →
    Option (List ProviderSpecificProperty)
  | [] => none
  | q :: rest =>
    if q.name = providerSpecificEfficientipPtrRecord then
      some ({ q with value := "true" } :: rest)
    else
      (setPtrFirst rest).map (fun l => q :: l)

/-- addPTRRecordTracking embeds the method of the same name: overwrite
the first matching provider-specific entry in place, or append one via
WithProviderSpecific when none matches. -/
def addPTRRecordTracking (ep : Endpoint) : Endpoint :=
  match setPtrFirst ep.providerSpecific with
  | some l => { ep with providerSpecific := l }
  | none =>
    { ep with providerSpecific :=
        ep.providerSpecific ++
          [{ name := providerSpecificEfficientipPtrRecord, value := "true" }] }

/-- adjustOne is the loop body of AdjustEndpoints for one endpoint:
default the TTL when not configured, then, when PTR tracking is
enabled and the record is an A record, add the tracking entry. -/
def adjustOne (config : EfficientIPConfig) (ep : Endpoint) : Endpoint :=
  let ep1 :=
    if ¬ ttlIsConfigured ep.recordTTL then
      { ep with recordTTL := config.DefaultTTL }
    else ep
  if config.CreatePTR = false then ep1
  else if ep1.recordType = RecordTypeA then addPTRRecordTracking ep1
  else ep1

/-- AdjustEndpoints embeds the method of the same name: the empty list
is returned as is, otherwise every endpoint is adjusted in order. -/
def AdjustEndpoints (p : Provider) (endpoints : List Endpoint) :
    List Endpoint × Option ApiError :=
  if endpoints.length = 0 then (endpoints, none)
  else (endpoints.map (adjustOne p.config), none)

/-- recognizedType asks whether convertRecordsToEndpoints has a
switch case for the row type. -/
def recognizedType (rr : ResourceRecord) : Bool :=
  rr.rrType == "A" || rr.rrType == "TXT" || rr.rrType == "CNAME"

/-! Decomposition of the conversion loop: the directly appended
TXT/CNAME endpoints and the A-record accumulator evolve
independently. -/

/-- stdList collects the endpoints the loop appends directly to the
output (one per TXT or CNAME row, in row order). -/
def stdList : List ResourceRecord → List Endpoint
  | [] => []
  | rr :: rest =>
    if rr.rrType = "A" then stdList rest
    else if rr.rrType = "TXT" ∨ rr.rrType = "CNAME" then
      createStandardEndpoint rr (parseTTL rr.rrTtl) :: stdList rest
    else stdList rest

/-- aFold folds the A rows of the sequence into the accumulator. -/
def aFold : List ResourceRecord → List (String × Endpoint) →
    List (String × Endpoint)
  | [], hostRecords => hostRecords
  | rr :: rest, hostRecords =>
    if rr.rrType = "A" then
      aFold rest (handleARecord rr (parseTTL rr.rrTtl) hostRecords)
    else aFold rest hostRecords

theorem convertLoop_eq (records : List ResourceRecord) :
    ∀ eps hostRecords, convertLoop records eps hostRecords =
      (eps ++ stdList records, aFold records hostRecords) := by
  induction records with
  | nil => intro eps hostRecords; simp [convertLoop, stdList, aFold]
  | cons rr rest ih =>
    intro eps hostRecords
    by_cases hA : rr.rrType = "A"
    · simp [convertLoop, stdList, aFold, hA, ih]
    · by_cases hstd : rr.rrType = "TXT" ∨ rr.rrType = "CNAME"
      · simp [convertLoop, stdList, aFold, hA, hstd, ih]
      · simp [convertLoop, stdList, aFold, hA, hstd, ih]

theorem convertIter_eq (iter : List (String × Endpoint) → List (String × Endpoint))
    (records : List ResourceRecord) :
    convertRecordsToEndpointsIter iter records =
      Except.ok (stdList records ++ (iter (aFold records [])).map (fun q => q.2)) := by
  simp [convertRecordsToEndpointsIter, convertLoop_eq]

theorem stdList_eq_filterMap (records : List ResourceRecord) :
    stdList records =
      (records.filter (fun rr => rr.rrType == "TXT" || rr.rrType == "CNAME")).map
        (fun rr => createStandardEndpoint rr (parseTTL rr.rrTtl)) := by
  induction records with
  | nil => simp [stdList]
  | cons rr rest ih =>
    by_cases hA : rr.rrType = "A"
    · simp [stdList, hA, List.filter, ih]
    · by_cases hstd : rr.rrType = "TXT" ∨ rr.rrType = "CNAME"
      · rcases hstd with h | h <;>
          simp [stdList, hA, h, List.filter, ih]
      · push_neg at hstd
        simp [stdList, hA, hstd.1, hstd.2, List.filter_cons, beq_iff_eq, ih]

theorem stdList_all_a (records : List ResourceRecord)
    (h : ∀ rr ∈ records, rr.rrType = "A") : stdList records = [] := by
  induction records with
  | nil => simp [stdList]
  | cons rr rest ih =>
    have hA := h rr (List.mem_cons_self rr rest)
    simp [stdList, hA, ih fun q hq => h q (List.mem_cons_of_mem rr hq)]

theorem appendTargetToKey_singleton (key tgt : String) (e : Endpoint) :
    appendTargetToKey key tgt [(key, e)] =
      [(key, { e with targets := e.targets ++ [tgt] })] := by
  simp [appendTargetToKey]

theorem aFold_singleton (n : String) (records : List ResourceRecord)
    (h : ∀ rr ∈ records, rr.rrType = "A" ∧ rr.rrFullName = n) :
    ∀ e, aFold records [(n ++ ":A", e)] =
      [(n ++ ":A",
        { e with targets := e.targets ++ records.map ResourceRecord.rrAllValue })] := by
  induction records with
  | nil => intro e; simp [aFold]
  | cons rr rest ih =>
    intro e
    obtain ⟨hA, hn⟩ := h rr (List.mem_cons_self rr rest)
    have hstep : handleARecord rr (parseTTL rr.rrTtl) [(n ++ ":A", e)] =
        [(n ++ ":A", { e with targets := e.targets ++ [rr.rrAllValue] })] := by
      simp [handleARecord, lookupKey, hn, appendTargetToKey]
    have ihe := ih (fun q hq => h q (List.mem_cons_of_mem rr hq))
      { e with targets := e.targets ++ [rr.rrAllValue] }
    simp only [aFold, hA, if_true, hstep, ihe]
    simp

theorem appendTargetToKey_typeA (key tgt : String) :
    ∀ l : List (String × Endpoint),
      (∀ q ∈ l, q.2.recordType = RecordTypeA) →
      ∀ q ∈ appendTargetToKey key tgt l, q.2.recordType = RecordTypeA := by
  intro l
  induction l with
  | nil => intro _ q hq; simp [appendTargetToKey] at hq
  | cons p rest ih =>
    intro h q hq
    by_cases hk : p.1 = key
    · simp [appendTargetToKey, hk] at hq
      rcases hq with hq | hq
      · subst hq; exact h p (List.mem_cons_self p rest)
      · exact h q (List.mem_cons_of_mem p hq)
    · cases p with
      | mk k e =>
        simp only [appendTargetToKey, if_neg hk] at hq
        rcases List.mem_cons.mp hq with hq | hq
        · subst hq; exact h ⟨k, e⟩ (List.mem_cons_self _ rest)
        · exact ih (fun q hq => h q (List.mem_cons_of_mem _ hq)) q hq

theorem handleARecord_typeA (rr : ResourceRecord) (ttl : Int)
    (hostRecords : List (String × Endpoint))
    (h : ∀ q ∈ hostRecords, q.2.recordType = RecordTypeA) :
    ∀ q ∈ handleARecord rr ttl hostRecords, q.2.recordType = RecordTypeA := by
  intro q hq
  simp only [handleARecord] at hq
  cases hfind : lookupKey (rr.rrFullName ++ ":A") hostRecords with
  | some e =>
    rw [hfind] at hq
    exact appendTargetToKey_typeA _ _ hostRecords h q hq
  | none =>
    rw [hfind] at hq
    rcases List.mem_append.mp hq with hq | hq
    · exact h q hq
    · simp at hq
      subst hq
      rfl

theorem aFold_typeA (records : List ResourceRecord) :
    ∀ hostRecords, (∀ q ∈ hostRecords, q.2.recordType = RecordTypeA) →
      ∀ q ∈ aFold records hostRecords, q.2.recordType = RecordTypeA := by
  induction records with
  | nil => intro hostRecords h q hq; exact h q hq
  | cons rr rest ih =>
    intro hostRecords h q hq
    by_cases hA : rr.rrType = "A"
    · simp only [aFold, hA, if_true] at hq
      exact ih _ (handleARecord_typeA rr _ hostRecords h) q hq
    · simp only [aFold, hA, if_false] at hq
      exact ih _ h q hq

theorem stdList_append (l₁ l₂ : List ResourceRecord) :
    stdList (l₁ ++ l₂) = stdList l₁ ++ stdList l₂ := by
  induction l₁ with
  | nil => simp [stdList]
  | cons rr rest ih =>
    by_cases hA : rr.rrType = "A"
    · simp [stdList, hA, ih]
    · by_cases hstd : rr.rrType = "TXT" ∨ rr.rrType = "CNAME"
      · simp [stdList, hA, hstd, ih]
      · simp [stdList, hA, hstd, ih]

theorem aFold_append (l₁ l₂ : List ResourceRecord) :
    ∀ hostRecords, aFold (l₁ ++ l₂) hostRecords = aFold l₂ (aFold l₁ hostRecords) := by
  induction l₁ with
  | nil => intro hostRecords; simp [aFold]
  | cons rr rest ih =>
    intro hostRecords
    by_cases hA : rr.rrType = "A"
    · simp [aFold, hA, ih]
    · simp [aFold, hA, ih]

theorem stdList_filter_recognized (records : List ResourceRecord) :
    stdList (records.filter recognizedType) = stdList records := by
  induction records with
  | nil => simp
  | cons rr rest ih =>
    by_cases hA : rr.rrType = "A"
    · simp [List.filter_cons, recognizedType, hA, stdList, ih]
    · by_cases hT : rr.rrType = "TXT"
      · simp [List.filter_cons, recognizedType, hT, stdList, ih]
      · by_cases hC : rr.rrType = "CNAME"
        · simp [List.filter_cons, recognizedType, hC, stdList, ih]
        · simp [List.filter_cons, recognizedType, hA, hT, hC, stdList, ih]

theorem aFold_filter_recognized (records : List ResourceRecord) :
    ∀ hostRecords,
      aFold (records.filter recognizedType) hostRecords = aFold records hostRecords := by
  induction records with
  | nil => intro hostRecords; simp
  | cons rr rest ih =>
    intro hostRecords
    by_cases hA : rr.rrType = "A"
    · simp [List.filter_cons, recognizedType, hA, aFold, ih]
    · by_cases hT : rr.rrType = "TXT"
      · simp [List.filter_cons, recognizedType, hT, aFold, hA, ih]
      · by_cases hC : rr.rrType = "CNAME"
        · simp [List.filter_cons, recognizedType, hC, aFold, hA, ih]
        · simp [List.filter_cons, recognizedType, hA, hT, hC, aFold, ih]

/-- Claim C1: for a nonempty row sequence consisting solely of A rows
that share one full name, convertRecordsToEndpoints yields exactly one
endpoint, carrying that name, of record type A, whose targets are the
row values in row (first-seen) order — in particular as many targets
as rows. -/
theorem convertRecords_mergesSameNameARows (n : String)
    (records : List ResourceRecord) (hne : records ≠ [])
    (hall : ∀ rr ∈ records, rr.rrType = "A" ∧ rr.rrFullName = n) :
    ∃ e, convertRecordsToEndpoints records = Except.ok [e] ∧
      e.dnsName = n ∧ e.recordType = RecordTypeA ∧
      e.targets = records.map ResourceRecord.rrAllValue := by
  cases records with
  | nil => exact absurd rfl hne
  | cons rr rest =>
    obtain ⟨hA, hn⟩ := hall rr (List.mem_cons_self rr rest)
    have hrest : ∀ q ∈ rest, q.rrType = "A" ∧ q.rrFullName = n :=
      fun q hq => hall q (List.mem_cons_of_mem rr hq)
    have hstd : stdList (rr :: rest) = [] :=
      stdList_all_a _ (fun q hq => (hall q hq).1)
    have h0 : handleARecord rr (parseTTL rr.rrTtl) [] =
        [(n ++ ":A",
          NewEndpointWithTTL n RecordTypeA (parseTTL rr.rrTtl) [rr.rrAllValue])] := by
      simp [handleARecord, lookupKey, hn]
    have hfold : aFold (rr :: rest) [] =
        [(n ++ ":A",
          { NewEndpointWithTTL n RecordTypeA (parseTTL rr.rrTtl) [rr.rrAllValue] with
              targets := [rr.rrAllValue] ++ rest.map ResourceRecord.rrAllValue })] := by
      have hstep : aFold (rr :: rest) [] =
          aFold rest [(n ++ ":A",
            NewEndpointWithTTL n RecordTypeA (parseTTL rr.rrTtl) [rr.rrAllValue])] := by
        simp [aFold, hA, h0]
      rw [hstep, aFold_singleton n rest hrest]
      rfl
    refine ⟨{ dnsName := n, recordType := RecordTypeA,
              recordTTL := parseTTL rr.rrTtl,
              targets := rr.rrAllValue :: rest.map ResourceRecord.rrAllValue,
              labels := [], providerSpecific := [] }, ?_, rfl, rfl, by simp⟩
    rw [convertRecordsToEndpoints, convertIter_eq, hstd, hfold]
    rfl

/-- Claim C1 witness: the two-row example from the specification. -/
theorem convertRecords_mergesSameNameARows_witness :
    ∃ e, convertRecordsToEndpoints
        [⟨"a.co", "A", "300", "1.1.1.1"⟩, ⟨"a.co", "A", "300", "2.2.2.2"⟩] =
        Except.ok [e] ∧
      e.dnsName = "a.co" ∧ e.recordType = RecordTypeA ∧
      e.targets = ["1.1.1.1", "2.2.2.2"] := by
  have h := convertRecords_mergesSameNameARows "a.co"
    [⟨"a.co", "A", "300", "1.1.1.1"⟩, ⟨"a.co", "A", "300", "2.2.2.2"⟩]
    (by decide) (by decide)
  simpa using h

/-- Claim C4: convertRecordsToEndpoints opens its output with one
endpoint per TXT/CNAME row, mapped over exactly the filtered row list
(so rows are never merged, coinciding names included), and each such
endpoint carries the single value of its row. -/
theorem convertRecords_txtCnamePerRow (records : List ResourceRecord) :
    (∃ rest, convertRecordsToEndpoints records =
      Except.ok
        (((records.filter fun rr => rr.rrType == "TXT" || rr.rrType == "CNAME").map
            fun rr => createStandardEndpoint rr (parseTTL rr.rrTtl)) ++ rest)) ∧
    ∀ rr ttl, (createStandardEndpoint rr ttl).targets = [rr.rrAllValue] ∧
      (createStandardEndpoint rr ttl).dnsName = rr.rrFullName ∧
      (createStandardEndpoint rr ttl).recordType = rr.rrType := by
  constructor
  · refine ⟨(aFold records []).map (fun q => q.2), ?_⟩
    rw [convertRecordsToEndpoints, convertIter_eq, stdList_eq_filterMap]
    rfl
  · intro rr ttl; exact ⟨rfl, rfl, rfl⟩

/-- Claim C6: rows whose type has no switch case are dropped without an
error: the conversion of any row sequence coincides with the conversion
of its recognized-type subsequence, and the result is always ok. -/
theorem convertRecords_dropsUnrecognized (records : List ResourceRecord) :
    convertRecordsToEndpoints records =
      convertRecordsToEndpoints (records.filter recognizedType) ∧
    ∃ l, convertRecordsToEndpoints records = Except.ok l := by
  constructor
  · rw [convertRecordsToEndpoints, convertRecordsToEndpoints, convertIter_eq,
      convertIter_eq, stdList_filter_recognized, aFold_filter_recognized]
  · exact ⟨_, by rw [convertRecordsToEndpoints, convertIter_eq]⟩

/-- Claim C5: a row whose TTL string strconv.Atoi rejects is treated
exactly as the same row with TTL "300" — so the row is still emitted,
with the default TTL — and the conversion still returns ok. -/
theorem convertRecords_ttlDefault (pre post : List ResourceRecord)
    (rr : ResourceRecord) (h : atoi rr.rrTtl = none) :
    convertRecordsToEndpoints (pre ++ rr :: post) =
      convertRecordsToEndpoints (pre ++ { rr with rrTtl := "300" } :: post) ∧
    ∃ l, convertRecordsToEndpoints (pre ++ rr :: post) = Except.ok l := by
  have hp : parseTTL rr.rrTtl = 300 := by simp [parseTTL, h]
  have hp300 : parseTTL "300" = 300 := by decide
  have hstd : stdList (rr :: post) = stdList ({ rr with rrTtl := "300" } :: post) := by
    by_cases hA : rr.rrType = "A"
    · simp [stdList, hA]
    · by_cases hs : rr.rrType = "TXT" ∨ rr.rrType = "CNAME"
      · simp only [stdList, hA, hs, if_false, if_true]
        rw [hp, hp300]
        rfl
      · simp [stdList, hA, hs]
  have hfold : ∀ hostRecords, aFold (rr :: post) hostRecords =
      aFold ({ rr with rrTtl := "300" } :: post) hostRecords := by
    intro hostRecords
    by_cases hA : rr.rrType = "A"
    · simp only [aFold, hA, if_true]
      rw [hp, hp300]
      rfl
    · simp [aFold, hA]
  constructor
  · rw [convertRecordsToEndpoints, convertRecordsToEndpoints, convertIter_eq,
      convertIter_eq, stdList_append, stdList_append, hstd, aFold_append,
      aFold_append, hfold]
  · exact ⟨_, by rw [convertRecordsToEndpoints, convertIter_eq]⟩

/-- Claim C5 witness: a TXT row with an unparseable TTL string. -/
theorem convertRecords_ttlDefault_witness :
    atoi "junk" = none ∧
    (convertRecordsToEndpoints [⟨"t.co", "TXT", "junk", "v"⟩] =
        convertRecordsToEndpoints [⟨"t.co", "TXT", "300", "v"⟩] ∧
      ∃ l, convertRecordsToEndpoints [⟨"t.co", "TXT", "junk", "v"⟩] = Except.ok l) :=
  ⟨by decide, convertRecords_ttlDefault [] [] ⟨"t.co", "TXT", "junk", "v"⟩ (by decide)⟩

/-- Claim C8: whatever order the host-record map is iterated in (any
permutation of the accumulated entries), the output is the TXT/CNAME
endpoints mapped over the rows in input order followed by all the
accumulated A endpoints, so every A endpoint comes after every
TXT/CNAME endpoint and only the order among the A endpoints varies. -/
theorem convertRecords_outputOrder
    (iter : List (String × Endpoint) → List (String × Endpoint))
    (hiter : ∀ l, List.Perm (iter l) l) (records : List ResourceRecord) :
    convertRecordsToEndpointsIter iter records =
      Except.ok
        (((records.filter fun rr => rr.rrType == "TXT" || rr.rrType == "CNAME").map
            fun rr => createStandardEndpoint rr (parseTTL rr.rrTtl)) ++
          (iter (aFold records [])).map (fun q => q.2)) ∧
    List.Perm ((iter (aFold records [])).map (fun q => q.2))
      ((aFold records []).map (fun q => q.2)) ∧
    ∀ e ∈ (iter (aFold records [])).map (fun q => q.2), e.recordType = RecordTypeA := by
  refine ⟨?_, ?_, ?_⟩
  · rw [convertIter_eq, stdList_eq_filterMap]
  · exact (hiter _).map _
  · intro e he
    obtain ⟨q, hq, rfl⟩ := List.mem_map.mp he
    exact aFold_typeA records [] (by simp) q ((hiter _).subset hq)

/-- Claim C8 witness: a mixed zone iterated in reversed accumulator
order still lists the TXT endpoint first. -/
theorem convertRecords_outputOrder_witness :
    convertRecordsToEndpointsIter List.reverse
      [⟨"b.co", "A", "60", "2.2.2.2"⟩, ⟨"t.co", "TXT", "60", "t"⟩,
       ⟨"a.co", "A", "60", "1.1.1.1"⟩] =
      Except.ok
        [⟨"t.co", "TXT", 60, ["t"], [], []⟩,
         ⟨"a.co", "A", 60, ["1.1.1.1"], [], []⟩,
         ⟨"b.co", "A", 60, ["2.2.2.2"], [], []⟩] := by
  have h := (convertRecords_outputOrder List.reverse (fun l => l.reverse_perm)
    [⟨"b.co", "A", "60", "2.2.2.2"⟩, ⟨"t.co", "TXT", "60", "t"⟩,
     ⟨"a.co", "A", "60", "1.1.1.1"⟩]).1
  rw [h]
  rfl

theorem recordAddLoop_allOk (api : EfficientIPAPI) (resp : Responder)
    (ep : Endpoint) (ts : List String)
    (h : ∀ t ∈ ts, resp (mkAddCall api ep t) = true) :
    recordAddLoop api resp ep ts = (ts.map (mkAddCall api ep), none) := by
  induction ts with
  | nil => simp [recordAddLoop]
  | cons t rest ih =>
    have ht := h t (List.mem_cons_self t rest)
    simp [recordAddLoop, createSingleRecord, ht,
      ih fun u hu => h u (List.mem_cons_of_mem t hu)]

theorem recordAddLoop_firstFail (api : EfficientIPAPI) (resp : Responder)
    (ep : Endpoint) (ts₁ : List String) (t : String) (ts₂ : List String)
    (hok : ∀ u ∈ ts₁, resp (mkAddCall api ep u) = true)
    (hfail : resp (mkAddCall api ep t) = false) :
    recordAddLoop api resp ep (ts₁ ++ t :: ts₂) =
      (ts₁.map (mkAddCall api ep) ++ [mkAddCall api ep t],
       some (ApiError.upstream (mkAddCall api ep t))) := by
  induction ts₁ with
  | nil => simp [recordAddLoop, createSingleRecord, hfail]
  | cons u rest ih =>
    have hu := hok u (List.mem_cons_self u rest)
    simp [recordAddLoop, createSingleRecord, hu,
      ih fun w hw => hok w (List.mem_cons_of_mem u hw)]

/-- Claim C3: RecordAdd rejects an empty target list with InvalidInput
without issuing any appliance call; with targets present it issues one
create call per target, sequentially in target order when every call
succeeds, and stops directly after the first failing call, never
calling for the remaining targets. -/
theorem recordAdd_perTarget (api : EfficientIPAPI) (resp : Responder)
    (ep : Endpoint) :
    (ep.targets = [] →
      RecordAdd api resp ep = ([], some (ApiError.invalidInput ep.dnsName))) ∧
    (ep.targets ≠ [] → (∀ t ∈ ep.targets, resp (mkAddCall api ep t) = true) →
      RecordAdd api resp ep = (ep.targets.map (mkAddCall api ep), none)) ∧
    (∀ ts₁ t ts₂, ep.targets = ts₁ ++ t :: ts₂ →
      (∀ u ∈ ts₁, resp (mkAddCall api ep u) = true) →
      resp (mkAddCall api ep t) = false →
      RecordAdd api resp ep =
        (ts₁.map (mkAddCall api ep) ++ [mkAddCall api ep t],
         some (ApiError.upstream (mkAddCall api ep t)))) := by
  refine ⟨?_, ?_, ?_⟩
  · intro h
    simp [RecordAdd, h]
  · intro hne hok
    rw [RecordAdd, if_neg (by simpa using hne)]
    exact recordAddLoop_allOk api resp ep ep.targets hok
  · intro ts₁ t ts₂ hsplit hok hfail
    have hne : ¬ ep.targets.length = 0 := by simp [hsplit]
    rw [RecordAdd, if_neg hne, hsplit]
    exact recordAddLoop_firstFail api resp ep ts₁ t ts₂ hok hfail

/-- Claim C3 witness: an empty-target create is rejected with no call,
and a three-target create whose second call fails issues exactly the
first two calls. -/
theorem recordAdd_perTarget_witness :
    RecordAdd ⟨"smart", "view"⟩ (fun _ => true) ⟨"a.co", "A", 300, [], [], []⟩ =
      ([], some (ApiError.invalidInput "a.co")) ∧
    RecordAdd ⟨"smart", "view"⟩
      (fun c => if c = ApplianceCall.add "smart" "view" "a.co" "A" 300 "2.2.2.2"
        then false else true)
      ⟨"a.co", "A", 300, ["1.1.1.1", "2.2.2.2", "3.3.3.3"], [], []⟩ =
      ([ApplianceCall.add "smart" "view" "a.co" "A" 300 "1.1.1.1",
        ApplianceCall.add "smart" "view" "a.co" "A" 300 "2.2.2.2"],
       some (ApiError.upstream
         (ApplianceCall.add "smart" "view" "a.co" "A" 300 "2.2.2.2"))) := by
  constructor
  · exact (recordAdd_perTarget ⟨"smart", "view"⟩ (fun _ => true)
      ⟨"a.co", "A", 300, [], [], []⟩).1 rfl
  · have h := (recordAdd_perTarget ⟨"smart", "view"⟩
      (fun c => if c = ApplianceCall.add "smart" "view" "a.co" "A" 300 "2.2.2.2"
        then false else true)
      ⟨"a.co", "A", 300, ["1.1.1.1", "2.2.2.2", "3.3.3.3"], [], []⟩).2.2
      ["1.1.1.1"] "2.2.2.2" ["3.3.3.3"] rfl (by decide) (by decide)
    rw [h]
    decide

/-- Claim C9: with DryRun enabled, CreateChanges and DeleteChanges are
silent no-ops for every endpoint: no appliance call and no error, the
empty-target InvalidInput rejection included. -/
theorem dryRun_noCalls (p : Provider) (resp : Responder) (ep : Endpoint)
    (h : p.config.DryRun = true) :
    CreateChanges p resp ep = ([], none) ∧
    DeleteChanges p resp ep = ([], none) := by
  constructor <;> simp [CreateChanges, DeleteChanges, h]

/-- Claim C9 witness: a dry-run provider given an endpoint with no
targets at all still returns success with no calls. -/
theorem dryRun_noCalls_witness :
    CreateChanges ⟨⟨"s", "v"⟩, ⟨true, false, 300⟩⟩ (fun _ => false)
        ⟨"a.co", "A", 300, [], [], []⟩ = ([], none) ∧
    DeleteChanges ⟨⟨"s", "v"⟩, ⟨true, false, 300⟩⟩ (fun _ => false)
        ⟨"a.co", "A", 300, [], [], []⟩ = ([], none) :=
  dryRun_noCalls ⟨⟨"s", "v"⟩, ⟨true, false, 300⟩⟩ (fun _ => false)
    ⟨"a.co", "A", 300, [], [], []⟩ rfl

theorem addPTRRecordTracking_frame (e : Endpoint) :
    (addPTRRecordTracking e).dnsName = e.dnsName ∧
    (addPTRRecordTracking e).recordType = e.recordType ∧
    (addPTRRecordTracking e).recordTTL = e.recordTTL ∧
    (addPTRRecordTracking e).targets = e.targets ∧
    (addPTRRecordTracking e).labels = e.labels := by
  unfold addPTRRecordTracking
  cases setPtrFirst e.providerSpecific <;> exact ⟨rfl, rfl, rfl, rfl, rfl⟩

/-- Claim C10: AdjustEndpoints maps its input one to one, in order,
never erring; each endpoint keeps its DNS name, record type, targets
and labels, and its TTL changes only to the configured default when it
was not configured; and ApplyChanges on nil changes is a silent
no-op. -/
theorem adjustEndpoints_frame (p : Provider) (endpoints : List Endpoint)
    (resp : Responder) :
    AdjustEndpoints p endpoints = (endpoints.map (adjustOne p.config), none) ∧
    (AdjustEndpoints p endpoints).1.length = endpoints.length ∧
    (∀ ep, (adjustOne p.config ep).dnsName = ep.dnsName ∧
      (adjustOne p.config ep).recordType = ep.recordType ∧
      (adjustOne p.config ep).targets = ep.targets ∧
      (adjustOne p.config ep).labels = ep.labels ∧
      (adjustOne p.config ep).recordTTL =
        (if ttlIsConfigured ep.recordTTL then ep.recordTTL
         else p.config.DefaultTTL)) ∧
    ApplyChanges p resp none = ([], none) := by
  have hmap : AdjustEndpoints p endpoints =
      (endpoints.map (adjustOne p.config), none) := by
    by_cases h0 : endpoints.length = 0
    · rw [List.length_eq_zero] at h0
      subst h0
      simp [AdjustEndpoints]
    · simp [AdjustEndpoints, h0]
  have hone : ∀ ep : Endpoint, (adjustOne p.config ep).dnsName = ep.dnsName ∧
      (adjustOne p.config ep).recordType = ep.recordType ∧
      (adjustOne p.config ep).targets = ep.targets ∧
      (adjustOne p.config ep).labels = ep.labels ∧
      (adjustOne p.config ep).recordTTL =
        (if ttlIsConfigured ep.recordTTL then ep.recordTTL
         else p.config.DefaultTTL) := by
    intro ep
    obtain ⟨f1, f2, f3, f4, f5⟩ :=
      addPTRRecordTracking_frame
        (if ¬ ttlIsConfigured ep.recordTTL then
            { ep with recordTTL := p.config.DefaultTTL }
          else ep)
    unfold adjustOne
    by_cases hc : ttlIsConfigured ep.recordTTL <;>
      by_cases hptr : p.config.CreatePTR = false <;>
        simp_all <;>
          by_cases hA : ep.recordType = RecordTypeA <;>
            simp_all
  exact ⟨hmap, by rw [hmap]; simp, hone, rfl⟩

theorem setPtrFirst_of_countP_zero (l : List ProviderSpecificProperty)
    (h : l.countP (fun q => q.name == providerSpecificEfficientipPtrRecord) = 0) :
    setPtrFirst l = none := by
  induction l with
  | nil => rfl
  | cons q rest ih =>
    rw [List.countP_cons] at h
    by_cases hq : q.name = providerSpecificEfficientipPtrRecord
    · rw [if_pos (by simpa using hq)] at h
      omega
    · rw [if_neg (by simpa using hq)] at h
      have hrest : rest.countP
          (fun q => q.name == providerSpecificEfficientipPtrRecord) = 0 := by
        omega
      simp only [setPtrFirst, if_neg hq, ih hrest]
      rfl

theorem map_overwrite_of_countP_zero (l : List ProviderSpecificProperty)
    (h : l.countP (fun q => q.name == providerSpecificEfficientipPtrRecord) = 0) :
    l.map (fun q => if q.name == providerSpecificEfficientipPtrRecord then
      { q with value := "true" } else q) = l := by
  induction l with
  | nil => rfl
  | cons q rest ih =>
    rw [List.countP_cons] at h
    by_cases hq : q.name = providerSpecificEfficientipPtrRecord
    · rw [if_pos (by simpa using hq)] at h
      omega
    · rw [if_neg (by simpa using hq)] at h
      have hrest : rest.countP
          (fun q => q.name == providerSpecificEfficientipPtrRecord) = 0 := by
        omega
      rw [List.map_cons, ih hrest, if_neg (by simpa using hq)]

theorem setPtrFirst_of_countP_one (l : List ProviderSpecificProperty)
    (h : l.countP (fun q => q.name == providerSpecificEfficientipPtrRecord) = 1) :
    setPtrFirst l = some (l.map
      (fun q => if q.name == providerSpecificEfficientipPtrRecord then
        { q with value := "true" } else q)) := by
  induction l with
  | nil => simp at h
  | cons q rest ih =>
    rw [List.countP_cons] at h
    by_cases hq : q.name = providerSpecificEfficientipPtrRecord
    · rw [if_pos (by simpa using hq)] at h
      have hrest : rest.countP
          (fun q => q.name == providerSpecificEfficientipPtrRecord) = 0 := by
        omega
      rw [List.map_cons, map_overwrite_of_countP_zero rest hrest,
        if_pos (by simpa using hq)]
      simp only [setPtrFirst, if_pos hq]
    · rw [if_neg (by simpa using hq)] at h
      have hrest : rest.countP
          (fun q => q.name == providerSpecificEfficientipPtrRecord) = 1 := by
        omega
      rw [List.map_cons, if_neg (by simpa using hq)]
      simp only [setPtrFirst, if_neg hq, ih hrest]
      rfl

/-- Claim C7: adjusting an A-record endpoint with PTR tracking enabled
overwrites an existing tracking entry in place — the count of entries
with the tracking name stays exactly one, every other entry and the
order untouched — while an endpoint without the entry gains exactly
one, of value true, at the end. -/
theorem adjustEndpoints_ptrTracking (p : Provider) (ep : Endpoint)
    (hptr : p.config.CreatePTR = true) (hA : ep.recordType = RecordTypeA) :
    (AdjustEndpoints p [ep]).1 = [adjustOne p.config ep] ∧
    (ep.providerSpecific.countP
        (fun q => q.name == providerSpecificEfficientipPtrRecord) = 1 →
      (adjustOne p.config ep).providerSpecific =
        ep.providerSpecific.map
          (fun q => if q.name == providerSpecificEfficientipPtrRecord then
            { q with value := "true" } else q) ∧
      (adjustOne p.config ep).providerSpecific.countP
        (fun q => q.name == providerSpecificEfficientipPtrRecord) = 1) ∧
    (ep.providerSpecific.countP
        (fun q => q.name == providerSpecificEfficientipPtrRecord) = 0 →
      (adjustOne p.config ep).providerSpecific =
        ep.providerSpecific ++
          [{ name := providerSpecificEfficientipPtrRecord, value := "true" }]) := by
  have hps : (adjustOne p.config ep).providerSpecific =
      (addPTRRecordTracking
        (if ¬ ttlIsConfigured ep.recordTTL then
            { ep with recordTTL := p.config.DefaultTTL }
          else ep)).providerSpecific := by
    unfold adjustOne
    by_cases hc : ttlIsConfigured ep.recordTTL <;>
      simp [hc, hptr, hA]
  have hsame : (if ¬ ttlIsConfigured ep.recordTTL then
      { ep with recordTTL := p.config.DefaultTTL }
    else ep).providerSpecific = ep.providerSpecific := by
    by_cases hc : ttlIsConfigured ep.recordTTL <;> simp [hc]
  refine ⟨by simp [AdjustEndpoints], ?_, ?_⟩
  · intro hone
    have hset := setPtrFirst_of_countP_one ep.providerSpecific hone
    have hout : (adjustOne p.config ep).providerSpecific =
        ep.providerSpecific.map
          (fun q => if q.name == providerSpecificEfficientipPtrRecord then
            { q with value := "true" } else q) := by
      rw [hps]
      unfold addPTRRecordTracking
      rw [hsame, hset]
    refine ⟨hout, ?_⟩
    rw [hout, List.countP_map]
    rw [show ((fun q : ProviderSpecificProperty =>
        q.name == providerSpecificEfficientipPtrRecord) ∘
        (fun q => if q.name == providerSpecificEfficientipPtrRecord then
          { q with value := "true" } else q)) = (fun q =>
        q.name == providerSpecificEfficientipPtrRecord) from ?_, hone]
    funext q
    by_cases hq : q.name = providerSpecificEfficientipPtrRecord <;>
      simp [hq]
  · intro hzero
    rw [hps]
    unfold addPTRRecordTracking
    rw [hsame, setPtrFirst_of_countP_zero ep.providerSpecific hzero]

/-- Claim C7 witness: an A endpoint already carrying the tracking
entry keeps exactly one, its value overwritten; one without it gains
exactly one. -/
theorem adjustEndpoints_ptrTracking_witness :
    (adjustOne ⟨false, true, 300⟩
        ⟨"a.co", "A", 300, ["1.1.1.1"], [],
          [⟨"efficientip-ptr-record-exists", "stale"⟩]⟩).providerSpecific =
      [⟨"efficientip-ptr-record-exists", "true"⟩] ∧
    (adjustOne ⟨false, true, 300⟩
        ⟨"a.co", "A", 300, ["1.1.1.1"], [], []⟩).providerSpecific =
      [⟨"efficientip-ptr-record-exists", "true"⟩] := by
  constructor
  · have h := (adjustEndpoints_ptrTracking ⟨⟨"s", "v"⟩, ⟨false, true, 300⟩⟩
      ⟨"a.co", "A", 300, ["1.1.1.1"], [],
        [⟨"efficientip-ptr-record-exists", "stale"⟩]⟩ rfl rfl).2.1 (by decide)
    rw [h.1]
    decide
  · have h := (adjustEndpoints_ptrTracking ⟨⟨"s", "v"⟩, ⟨false, true, 300⟩⟩
      ⟨"a.co", "A", 300, ["1.1.1.1"], [], []⟩ rfl rfl).2.2 (by decide)
    rw [h]
    decide

/-- Claim C2: ApplyChanges handles the sub-batches in the fixed order
Delete, UpdateOld (as deletions), Create, UpdateNew (as creations);
its call trace concatenates the phase traces in that order, a failing
phase ends the run keeping the earlier phases applied and issuing no
later call, and a {Delete: [X], Create: [Y]} batch issues every delete
call of X strictly before any create call of Y. -/
theorem applyChanges_phaseOrder (p : Provider) (resp : Responder) :
    (∀ ch : Changes,
      (processDeletions p resp ch.delete).2 = none →
      (processDeletions p resp ch.updateOld).2 = none →
      (processCreations p resp ch.create).2 = none →
      ApplyChanges p resp (some ch) =
        ((processDeletions p resp ch.delete).1 ++
         (processDeletions p resp ch.updateOld).1 ++
         (processCreations p resp ch.create).1 ++
         (processCreations p resp ch.updateNew).1,
         (processCreations p resp ch.updateNew).2)) ∧
    (∀ ch err, (processDeletions p resp ch.delete).2 = some err →
      ApplyChanges p resp (some ch) =
        ((processDeletions p resp ch.delete).1, some err)) ∧
    (∀ ch err, (processDeletions p resp ch.delete).2 = none →
      (processDeletions p resp ch.updateOld).2 = some err →
      ApplyChanges p resp (some ch) =
        ((processDeletions p resp ch.delete).1 ++
         (processDeletions p resp ch.updateOld).1, some err)) ∧
    (∀ ch err, (processDeletions p resp ch.delete).2 = none →
      (processDeletions p resp ch.updateOld).2 = none →
      (processCreations p resp ch.create).2 = some err →
      ApplyChanges p resp (some ch) =
        ((processDeletions p resp ch.delete).1 ++
         (processDeletions p resp ch.updateOld).1 ++
         (processCreations p resp ch.create).1, some err)) ∧
    (∀ X Y, (processDeletions p resp [X]).2 = none →
      (processCreations p resp [Y]).2 = none →
      ApplyChanges p resp
        (some { create := [Y], updateOld := [], updateNew := [], delete := [X] }) =
        ((processDeletions p resp [X]).1 ++ (processCreations p resp [Y]).1,
         none)) := by
  refine ⟨?_, ?_, ?_, ?_, ?_⟩
  · intro ch h1 h2 h3
    simp [ApplyChanges, h1, h2, h3, List.append_assoc]
  · intro ch err h1
    simp [ApplyChanges, h1]
  · intro ch err h1 h2
    simp [ApplyChanges, h1, h2]
  · intro ch err h1 h2 h3
    simp [ApplyChanges, h1, h2, h3, List.append_assoc]
  · intro X Y h1 h2
    have huo : processDeletions p resp ([] : List Endpoint) = ([], none) := rfl
    have hun : processCreations p resp ([] : List Endpoint) = ([], none) := rfl
    simp [ApplyChanges, h1, h2, huo, hun]

/-- Claim C2 witness: one delete and one create, all calls succeeding:
the delete call is issued first, then the create call. -/
theorem applyChanges_phaseOrder_witness :
    ApplyChanges ⟨⟨"s", "v"⟩, ⟨false, false, 300⟩⟩ (fun _ => true)
      (some { create := [⟨"new.co", "A", 300, ["2.2.2.2"], [], []⟩],
              updateOld := [], updateNew := [],
              delete := [⟨"old.co", "A", 300, ["1.1.1.1"], [], []⟩] }) =
      ([ApplianceCall.del "old.co" "A" "1.1.1.1",
        ApplianceCall.add "s" "v" "new.co" "A" 300 "2.2.2.2"], none) := by
  have h := (applyChanges_phaseOrder ⟨⟨"s", "v"⟩, ⟨false, false, 300⟩⟩
      (fun _ => true)).2.2.2.2
    ⟨"old.co", "A", 300, ["1.1.1.1"], [], []⟩
    ⟨"new.co", "A", 300, ["2.2.2.2"], [], []⟩ (by decide) (by decide)
  rw [h]
  decide

end SolidDNS
